import Mathlib

/-!
Verification of the nurse-scheduling core in src/model.py (class SchedulingModel).

The CP-SAT model built by SchedulingModel.solve is embedded shallowly:

* the calendar arithmetic (calendar.monthrange, datetime.weekday) is embedded
  as executable Gregorian-calendar functions with the proleptic ordinal used
  by CPython (ordinal 1 = 0001-01-01, a Monday);
* a solver assignment is a record of the decision-variable values
  (shift booleans x, overtime booleans ox, the integer variables for regular
  and overtime shifts, and the weekend-free indicator booleans);
* each family of linear constraints added in solve becomes a decidable Prop
  over a configuration and an assignment, translated loop by loop;
* the objective, the post-solve extraction of the roster DataFrame and the
  per-nurse statistics are embedded as executable functions;
* the float scale factors of the objective are embedded as exact rationals,
  while the work-rest-ratio window cap, where rounding is observable, is
  embedded with explicit IEEE-754 binary64 rounding (fl below).
-/

namespace NurseSched

/-! ## Calendar: embedding of calendar.monthrange and datetime.weekday -/

/-- Gregorian leap-year rule used by the calendar module. -/
def isLeapYear (y : Nat) : Bool :=
  (y % 4 == 0 && y % 100 != 0) || (y % 400 == 0)

/-- Length of a month, as returned by calendar.monthrange(year, month)[1]. -/
def daysInMonth (y m : Nat) : Nat :=
  if m = 2 then (if isLeapYear y then 29 else 28)
  else if m = 4 ∨ m = 6 ∨ m = 9 ∨ m = 11 then 30
  else 31

/-- Days in months strictly before month m of year y. -/
def daysBeforeMonth (y m : Nat) : Nat :=
  ∑ k in Finset.range (m - 1), daysInMonth y (k + 1)

/-- Proleptic-Gregorian ordinal of a date, as date(y, m, d).toordinal():
ordinal 1 is 0001-01-01. -/
def toOrdinalDate (y m d : Nat) : Nat :=
  365 * (y - 1) + (y - 1) / 4 + (y - 1) / 400 - (y - 1) / 100
    + daysBeforeMonth y m + d

/-- datetime(y, m, d).weekday(): Monday = 0, ..., Sunday = 6.
0001-01-01 (ordinal 1) was a Monday. -/
def pyWeekday (y m d : Nat) : Nat :=
  (toOrdinalDate y m d + 6) % 7

/-! ## Configuration

The fields mirror the attributes of SchedulingModel set by setup_model.
The three per-person dictionaries are given as total functions from the
person index: they are the values obtained by the (unguarded) outer dict
lookups of solve; the raw dict-of-dicts form and the KeyError behaviour of
those lookups are modelled separately below (RawConfig / buildLookups).
The inner (day, shift) dictionaries remain association lists since solve
accesses them with guarded membership tests. -/

structure Config where
  year : Nat
  month : Nat
  num_nurses : Nat
  num_freelancers : Nat
  max_nurse_hours : Nat → Nat
  min_free_weekends : Nat
  max_consecutive_days : Nat
  nurse_preferences : Nat → List ((Nat × String) × Int)
  freelancer_availability : Nat → List ((Nat × String) × Nat)
  max_overhours : Nat
  work_rest_ratio : ℚ

/-- self.shift_duration -/
def shift_duration : Nat := 8

/-- self.shifts = ["M", "P"]; element s of the list. -/
def shiftName (s : Nat) : String := if s = 0 then "M" else "P"

/-- self.nurse_regular_cost (hardcoded in the constructor) -/
def nurse_regular_cost : ℚ := 1

/-- self.freelancer_cost (hardcoded in the constructor) -/
def freelancer_cost : ℚ := 3 / 2

/-- self.nurse_overhours_cost (hardcoded in the constructor) -/
def nurse_overhours_cost : ℚ := 2

/-- self.num_days as computed by setup_model. -/
def numDays (cfg : Config) : Nat := daysInMonth cfg.year cfg.month

/-- Number of employees: nurses then freelancers. -/
def numEmployees (cfg : Config) : Nat := cfg.num_nurses + cfg.num_freelancers

/-- get_weekend_days: 0-indexed (Saturday, Sunday) pairs of the month. -/
def weekendPairs (cfg : Config) : List (Nat × Nat) :=
  (List.range (numDays cfg)).filterMap (fun i =>
    let day := i + 1
    if pyWeekday cfg.year cfg.month day = 5 ∧ day + 1 ≤ numDays cfg ∧
        pyWeekday cfg.year cfg.month (day + 1) = 6
    then some (day - 1, day) else none)

/-! ## Solver assignment -/

/-- A valuation of the decision variables created in solve.
x e d s is shifts[(e, d, s)]; ox n d s is overhour_shifts[(n, d, s)];
reg n and ot n are the integer variables regular_hours[n] and
overtime_hours[n] (counted in shifts); isFree n w is the boolean
weekend_is_free[n][w]. -/
structure Asg where
  x : Nat → Nat → Nat → Bool
  ox : Nat → Nat → Nat → Bool
  reg : Nat → Nat
  ot : Nat → Nat
  isFree : Nat → Nat → Bool

/-- 0/1 value of a boolean variable. -/
def bn (v : Bool) : Nat := if v then 1 else 0

/-! ## Hard constraints, one Prop per family of model.add calls -/

/-- Each (day, shift) is covered by exactly one employee
(model.add_exactly_one). -/
def coverageC (cfg : Config) (a : Asg) : Prop :=
  ∀ d ∈ Finset.range (numDays cfg), ∀ s ∈ Finset.range 2,
    (∑ e in Finset.range (numEmployees cfg), bn (a.x e d s)) = 1

/-- Each employee works at most one shift per day (model.add_at_most_one). -/
def atMostOneC (cfg : Config) (a : Asg) : Prop :=
  ∀ e ∈ Finset.range (numEmployees cfg), ∀ d ∈ Finset.range (numDays cfg),
    (∑ s in Finset.range 2, bn (a.x e d s)) ≤ 1

/-- Total shifts of nurse n over the month. -/
def totalShifts (cfg : Config) (a : Asg) (n : Nat) : Nat :=
  ∑ d in Finset.range (numDays cfg), ∑ s in Finset.range 2, bn (a.x n d s)

/-- Overtime shifts of nurse n counted from the overhour booleans. -/
def overtimeShiftCount (cfg : Config) (a : Asg) (n : Nat) : Nat :=
  ∑ d in Finset.range (numDays cfg), ∑ s in Finset.range 2, bn (a.ox n d s)

/-- max_regular_shifts = self.max_nurse_hours[n] // self.shift_duration. -/
def maxRegularShifts (cfg : Config) (n : Nat) : Nat :=
  cfg.max_nurse_hours n / shift_duration

/-- Regular/overtime bookkeeping for each nurse: variable domains,
regular + overtime = total, overtime = number of overhour booleans set, and
overhour booleans are a subset of the shift booleans. -/
def nurseHoursC (cfg : Config) (a : Asg) : Prop :=
  ∀ n ∈ Finset.range cfg.num_nurses,
    a.reg n ≤ maxRegularShifts cfg n ∧
    a.ot n ≤ cfg.max_overhours ∧
    a.reg n + a.ot n = totalShifts cfg a n ∧
    a.ot n = overtimeShiftCount cfg a n ∧
    (∀ d ∈ Finset.range (numDays cfg), ∀ s ∈ Finset.range 2,
      bn (a.ox n d s) ≤ bn (a.x n d s))

/-- Freelancers can only work when available: shifts[(f, d, s)] = 0 whenever
the (1-indexed day, shift-name) key is absent or maps to 0. -/
def freelancerAvailC (cfg : Config) (a : Asg) : Prop :=
  ∀ fi ∈ Finset.range cfg.num_freelancers,
    ∀ d ∈ Finset.range (numDays cfg), ∀ s ∈ Finset.range 2,
      ((cfg.freelancer_availability fi).lookup (d + 1, shiftName s) = none ∨
       (cfg.freelancer_availability fi).lookup (d + 1, shiftName s) = some 0) →
      a.x (cfg.num_nurses + fi) d s = false

/-- Holiday constraints: a nurse cannot work a (day, shift) whose preference
value is 2 (Ferie). -/
def holidayC (cfg : Config) (a : Asg) : Prop :=
  ∀ n ∈ Finset.range cfg.num_nurses,
    ∀ d ∈ Finset.range (numDays cfg), ∀ s ∈ Finset.range 2,
      (cfg.nurse_preferences n).lookup (d + 1, shiftName s) = some 2 →
      a.x n d s = false

/-- Shifts of employee e in the window of max_consecutive_days + 1 days
starting at start_day, with the d < num_days guard of the source. -/
def consecutiveWindowSum (cfg : Config) (a : Asg) (e start : Nat) : Nat :=
  ∑ i in Finset.range (cfg.max_consecutive_days + 1),
    if start + i < numDays cfg
    then bn (a.x e (start + i) 0) + bn (a.x e (start + i) 1) else 0

/-- No more than max_consecutive_days worked in a row. -/
def consecutiveC (cfg : Config) (a : Asg) : Prop :=
  ∀ e ∈ Finset.range (numEmployees cfg),
    ∀ start ∈ Finset.range (numDays cfg - cfg.max_consecutive_days),
      consecutiveWindowSum cfg a e start ≤ cfg.max_consecutive_days

/-- Python int() applied to a rational: truncation toward zero. -/
def pyTruncInt (q : ℚ) : ℤ := q.num.tdiv q.den

/-- Round a rational to the nearest integer, ties to even. -/
def roundNearestEven (x : ℚ) : ℤ :=
  if x - ⌊x⌋ < 1/2 then ⌊x⌋
  else if 1/2 < x - ⌊x⌋ then ⌊x⌋ + 1
  else if 2 ∣ ⌊x⌋ then ⌊x⌋ else ⌊x⌋ + 1

/-- Round a positive rational to 53 significant bits (nearest, ties to
even): the value is scaled into [2 ^ 52, 2 ^ 53) by the appropriate power
of two, rounded to an integer and scaled back. -/
def flPos (q : ℚ) : ℚ :=
  (roundNearestEven (q / (2:ℚ) ^ (Int.log 2 q - 52)) : ℚ) *
    (2:ℚ) ^ (Int.log 2 q - 52)

/-- IEEE-754 binary64 rounding (round to nearest, ties to even) of a
rational value in the normal range; overflow and subnormals do not occur
in the quantities the source computes (all lie between 1 and 2 ^ 7). -/
def fl (q : ℚ) : ℚ :=
  if q < 0 then -flPos (-q) else if q = 0 then 0 else flPos q

/-- The Python float expression
window_size * self.work_rest_ratio / (1 + self.work_rest_ratio) with
window_size = 14: the multiplication, the addition and the division each
round their exact result to binary64, exactly as CPython evaluates the
expression on the float work_rest_ratio. -/
def floatRatioQuotient (r : ℚ) : ℚ := fl (fl (14 * r) / fl (1 + r))

/-- max_work_days_in_window =
min(int(window_size * ratio / (1 + ratio)), window_size - 1)
with window_size = 14 and the quotient evaluated in binary64 floats. -/
def maxWorkDaysInWindow (cfg : Config) : ℤ :=
  min (pyTruncInt (floatRatioQuotient cfg.work_rest_ratio)) 13

/-- Shifts of employee e in the 14-day window starting at start, with the
d < num_days guard of the source. -/
def windowSum (cfg : Config) (a : Asg) (e start : Nat) : ℤ :=
  ∑ i in Finset.range 14,
    if start + i < numDays cfg
    then (bn (a.x e (start + i) 0) : ℤ) + (bn (a.x e (start + i) 1) : ℤ)
    else 0

/-- Sliding 14-day work/rest-ratio constraint. The Python loop bound
range(num_days - 14 + 1) is empty for num_days < 14, matching
Finset.range (num_days + 1 - 14) under truncated subtraction. -/
def windowC (cfg : Config) (a : Asg) : Prop :=
  ∀ e ∈ Finset.range (numEmployees cfg),
    ∀ start ∈ Finset.range (numDays cfg + 1 - 14),
      windowSum cfg a e start ≤ maxWorkDaysInWindow cfg

/-- No afternoon shift followed by a morning shift the next day. -/
def noPMC (cfg : Config) (a : Asg) : Prop :=
  ∀ e ∈ Finset.range (numEmployees cfg), ∀ d ∈ Finset.range (numDays cfg - 1),
    bn (a.x e d 1) + bn (a.x e (d + 1) 0) ≤ 1

/-- Shifts worked by nurse n on the w-th weekend pair
(sat_shifts + sun_shifts of the source). -/
def weekendShiftCount (cfg : Config) (a : Asg) (n w : Nat) : Nat :=
  (∑ s in Finset.range 2, bn (a.x n ((weekendPairs cfg).getD w (0, 0)).1 s)) +
  (∑ s in Finset.range 2, bn (a.x n ((weekendPairs cfg).getD w (0, 0)).2 s))

/-- Linearization of the weekend-free indicator:
sat_shifts + sun_shifts <= 2 * (1 - is_free) and
sat_shifts + sun_shifts >= 1 - is_free. -/
def weekendLinC (cfg : Config) (a : Asg) : Prop :=
  ∀ n ∈ Finset.range cfg.num_nurses,
    ∀ w ∈ Finset.range (weekendPairs cfg).length,
      (weekendShiftCount cfg a n w : ℤ) ≤ 2 * (1 - (bn (a.isFree n w) : ℤ)) ∧
      (weekendShiftCount cfg a n w : ℤ) ≥ 1 - (bn (a.isFree n w) : ℤ)

/-- Minimum free weekends, added only when the per-nurse indicator list is
nonempty (i.e. when at least one weekend pair exists). -/
def minFreeWeekendsC (cfg : Config) (a : Asg) : Prop :=
  ∀ n ∈ Finset.range cfg.num_nurses,
    weekendPairs cfg ≠ [] →
    cfg.min_free_weekends ≤
      ∑ w in Finset.range (weekendPairs cfg).length, bn (a.isFree n w)

/-- The complete hard-constraint set of the CP-SAT model built in solve. -/
def modelConstraints (cfg : Config) (a : Asg) : Prop :=
  coverageC cfg a ∧ atMostOneC cfg a ∧ nurseHoursC cfg a ∧
  freelancerAvailC cfg a ∧ holidayC cfg a ∧ consecutiveC cfg a ∧
  windowC cfg a ∧ noPMC cfg a ∧ weekendLinC cfg a ∧ minFreeWeekendsC cfg a

instance (cfg : Config) (a : Asg) : Decidable (coverageC cfg a) := by
  unfold coverageC; infer_instance

instance (cfg : Config) (a : Asg) : Decidable (atMostOneC cfg a) := by
  unfold atMostOneC; infer_instance

instance (cfg : Config) (a : Asg) : Decidable (nurseHoursC cfg a) := by
  unfold nurseHoursC; infer_instance

instance (cfg : Config) (a : Asg) : Decidable (freelancerAvailC cfg a) := by
  unfold freelancerAvailC; infer_instance

instance (cfg : Config) (a : Asg) : Decidable (holidayC cfg a) := by
  unfold holidayC; infer_instance

instance (cfg : Config) (a : Asg) : Decidable (consecutiveC cfg a) := by
  unfold consecutiveC; infer_instance

instance (cfg : Config) (a : Asg) : Decidable (windowC cfg a) := by
  unfold windowC; infer_instance

instance (cfg : Config) (a : Asg) : Decidable (noPMC cfg a) := by
  unfold noPMC; infer_instance

instance (cfg : Config) (a : Asg) : Decidable (weekendLinC cfg a) := by
  unfold weekendLinC; infer_instance

instance (cfg : Config) (a : Asg) : Decidable (minFreeWeekendsC cfg a) := by
  unfold minFreeWeekendsC; infer_instance

instance (cfg : Config) (a : Asg) : Decidable (modelConstraints cfg a) := by
  unfold modelConstraints; infer_instance

/-! ## Objective function (exact rationals in place of the Python floats) -/

/-- max_nurse_pref = max(sum of preference-dict sizes, 1). -/
def maxNursePref (cfg : Config) : Nat :=
  max (∑ n in Finset.range cfg.num_nurses, (cfg.nurse_preferences n).length) 1

/-- max_free_weekends = max(len(weekend_pairs) * num_nurses, 1). -/
def maxFreeWeekends (cfg : Config) : Nat :=
  max ((weekendPairs cfg).length * cfg.num_nurses) 1

/-- nurse_pref_scale = 3000.0 / max_nurse_pref. -/
def nursePrefScale (cfg : Config) : ℚ := 3000 / (maxNursePref cfg : ℚ)

/-- free_weekends_scale = 2500.0 / max_free_weekends. -/
def freeWeekendsScale (cfg : Config) : ℚ := 2500 / (maxFreeWeekends cfg : ℚ)

/-- Objective part 1: nurse preferences, scaled by nurse_pref_scale,
positive for Si (+1) preferences and negative for No (-1) preferences. -/
def prefTerms (cfg : Config) (a : Asg) : ℚ :=
  ∑ n in Finset.range cfg.num_nurses, ∑ d in Finset.range (numDays cfg),
    ∑ s in Finset.range 2,
      match (cfg.nurse_preferences n).lookup (d + 1, shiftName s) with
      | some 1 => (bn (a.x n d s) : ℚ) * nursePrefScale cfg
      | some (-1) => -(bn (a.x n d s) : ℚ) * nursePrefScale cfg
      | _ => 0

/-- Shifts assigned to freelancer index fi (employee num_nurses + fi). -/
def freelancerShifts (cfg : Config) (a : Asg) (fi : Nat) : Nat :=
  ∑ d in Finset.range (numDays cfg), ∑ s in Finset.range 2,
    bn (a.x (cfg.num_nurses + fi) d s)

/-- Objective part 2: assignment costs, negated and weighted by 35. -/
def costTerms (cfg : Config) (a : Asg) : ℚ :=
  (∑ n in Finset.range cfg.num_nurses,
    -((a.reg n : ℚ) * nurse_regular_cost) * 35) +
  (∑ n in Finset.range cfg.num_nurses,
    -((a.ot n : ℚ) * nurse_overhours_cost) * 35) +
  (∑ fi in Finset.range cfg.num_freelancers,
    -((freelancerShifts cfg a fi : ℚ) * freelancer_cost) * 35)

/-- Objective part 3: free weekends, scaled by free_weekends_scale. -/
def weekendTerms (cfg : Config) (a : Asg) : ℚ :=
  ∑ n in Finset.range cfg.num_nurses,
    ∑ w in Finset.range (weekendPairs cfg).length,
      (bn (a.isFree n w) : ℚ) * freeWeekendsScale cfg

/-- max_possible_squared_diff_sum =
(num_freelancers * (num_freelancers - 1) / 2) * num_days ** 2. -/
def maxSquaredDiffSum (cfg : Config) : ℚ :=
  ((cfg.num_freelancers : ℚ) * ((cfg.num_freelancers : ℚ) - 1) / 2) *
    (numDays cfg : ℚ) ^ 2

/-- freelancer_balance_scale = 1000.0 / max(1, max_possible_squared_diff_sum). -/
def freelancerBalanceScale (cfg : Config) : ℚ :=
  1000 / max 1 (maxSquaredDiffSum cfg)

/-- Objective part 4: freelancer balance, present only with more than one
freelancer; diff_sq is constrained to equal the squared shift difference, so
its value in any feasible assignment is the square below. -/
def balanceTerms (cfg : Config) (a : Asg) : ℚ :=
  if 1 < cfg.num_freelancers then
    ∑ f1 in Finset.range cfg.num_freelancers,
      ∑ f2 in Finset.range cfg.num_freelancers,
        if f1 < f2 then
          -(((freelancerShifts cfg a f1 : ℚ) -
             (freelancerShifts cfg a f2 : ℚ)) ^ 2) *
            freelancerBalanceScale cfg
        else 0
  else 0

/-- The maximized objective of solve. -/
def objective (cfg : Config) (a : Asg) : ℚ :=
  prefTerms cfg a + costTerms cfg a + weekendTerms cfg a + balanceTerms cfg a

/-- Follows the wording of the spec, for comparison with the implementation:
Term B enters with weight 40 (reg times c_reg plus ot times c_ot per
salaried, c_freelancer times shifts per contractor) and Term C gives each
free-weekend indicator the coefficient 3000/WeekendPairs. Terms A and D are
as in the implementation. -/
def specCostTerms (cfg : Config) (a : Asg) : ℚ :=
  (∑ n in Finset.range cfg.num_nurses,
    -((a.reg n : ℚ) * nurse_regular_cost) * 40) +
  (∑ n in Finset.range cfg.num_nurses,
    -((a.ot n : ℚ) * nurse_overhours_cost) * 40) +
  (∑ fi in Finset.range cfg.num_freelancers,
    -((freelancerShifts cfg a fi : ℚ) * freelancer_cost) * 40)

/-- Follows the wording of the spec: Term C coefficient 3000/WeekendPairs. -/
def specWeekendTerms (cfg : Config) (a : Asg) : ℚ :=
  ∑ n in Finset.range cfg.num_nurses,
    ∑ w in Finset.range (weekendPairs cfg).length,
      (bn (a.isFree n w) : ℚ) * (3000 / (maxFreeWeekends cfg : ℚ))

/-- The objective as the spec states it (weight profile 30/40/30/10). -/
def specObjective (cfg : Config) (a : Asg) : ℚ :=
  prefTerms cfg a + specCostTerms cfg a + specWeekendTerms cfg a +
    balanceTerms cfg a

/-! ## Solver driver -/

/-- solver.parameters.max_time_in_seconds, hardcoded in solve; the method
takes no time-limit argument and setup_model has none either. -/
def max_time_in_seconds : ℚ := 300

/-- Follows the wording of the spec: an optional time_limit_seconds input with
default 300 determines the wall-clock limit. -/
def specTimeLimit (time_limit_seconds : Option ℚ) : ℚ :=
  time_limit_seconds.getD 300

/-- CP-SAT terminal status values distinguished by solve. -/
inductive CpStatus
  | optimal
  | feasible
  | infeasible
  | modelInvalid
  | unknown
deriving DecidableEq

/-! ## Post-solve extraction (the success branch of solve) -/

/-- Whether day d (0-indexed) is a holiday for nurse n: preference value 2
on the morning or afternoon key of the 1-indexed day. -/
def isHolidayDay (cfg : Config) (n d : Nat) : Bool :=
  ((cfg.nurse_preferences n).lookup (d + 1, "M") == some 2) ||
  ((cfg.nurse_preferences n).lookup (d + 1, "P") == some 2)

/-- Roster cell of nurse n on day d, exactly as assembled in solve
(note the space in the overtime labels). -/
def nurseCell (cfg : Config) (a : Asg) (n d : Nat) : String :=
  if a.x n d 0 then (if a.ox n d 0 then "M (S)" else "M")
  else if a.x n d 1 then (if a.ox n d 1 then "P (S)" else "P")
  else if isHolidayDay cfg n d then "F" else "R"

/-- Roster cell of freelancer index fi on day d. -/
def freelancerCell (cfg : Config) (a : Asg) (fi d : Nat) : String :=
  if a.x (cfg.num_nurses + fi) d 0 then "M"
  else if a.x (cfg.num_nurses + fi) d 1 then "P"
  else "R"

/-- Roster cell of employee e on day d: nurse columns then freelancer
columns, as in the DataFrame rows built by solve. -/
def cellLabel (cfg : Config) (a : Asg) (e d : Nat) : String :=
  if e < cfg.num_nurses then nurseCell cfg a e d
  else freelancerCell cfg a (e - cfg.num_nurses) d

/-- The roster table: one row per day, one column per employee. -/
def extractSchedule (cfg : Config) (a : Asg) : List (List String) :=
  (List.range (numDays cfg)).map (fun d =>
    (List.range (numEmployees cfg)).map (fun e => cellLabel cfg a e d))

/-- regular_hours_worked[n]: 8 hours per worked non-overtime cell,
following the elif chain of the assembler. -/
def regularHoursWorked (cfg : Config) (a : Asg) (n : Nat) : Nat :=
  ∑ d in Finset.range (numDays cfg),
    if a.x n d 0 then (if a.ox n d 0 then 0 else shift_duration)
    else if a.x n d 1 then (if a.ox n d 1 then 0 else shift_duration)
    else 0

/-- overhours_worked[n]: 8 hours per worked overtime cell. -/
def overhoursWorked (cfg : Config) (a : Asg) (n : Nat) : Nat :=
  ∑ d in Finset.range (numDays cfg),
    if a.x n d 0 then (if a.ox n d 0 then shift_duration else 0)
    else if a.x n d 1 then (if a.ox n d 1 then shift_duration else 0)
    else 0

/-- hours_worked[n]: 8 hours per worked cell. -/
def hoursWorkedOf (cfg : Config) (a : Asg) (n : Nat) : Nat :=
  ∑ d in Finset.range (numDays cfg),
    if a.x n d 0 then shift_duration
    else if a.x n d 1 then shift_duration
    else 0

/-- Whether a roster cell carries the overtime suffix. -/
def hasOvertimeSuffix (lbl : String) : Bool :=
  lbl == "M (S)" || lbl == "P (S)"

/-- Number of roster cells of nurse n carrying the overtime suffix. -/
def overtimeSuffixCells (cfg : Config) (a : Asg) (n : Nat) : Nat :=
  ∑ d in Finset.range (numDays cfg), bn (hasOvertimeSuffix (nurseCell cfg a n d))

/-- Both days of a weekend pair free of assigned shifts for nurse n:
sat_free and sun_free of the assembler. -/
def pairIsFree (a : Asg) (n : Nat) (p : Nat × Nat) : Bool :=
  (!(a.x n p.1 0) && !(a.x n p.1 1)) && (!(a.x n p.2 0) && !(a.x n p.2 1))

/-- free_weekends[n], recomputed in the assembler from the shift values
(not read from the weekend_is_free variables). -/
def freeWeekendsCount (cfg : Config) (a : Asg) (n : Nat) : Nat :=
  (weekendPairs cfg).countP (pairIsFree a n)

/-- The tuple returned by solve, with the DataFrame reduced to its grid of
cell labels and the per-nurse statistics the claims mention. -/
structure SolveReturn where
  ok : Bool
  schedule : Option (List (List String))
  freeWeekends : Option (List Nat)

/-- The return path of solve: on OPTIMAL or FEASIBLE it extracts and returns
success; on any other status it returns the failure tuple. No further check
of the extracted roster happens in between. -/
def solveReturn (cfg : Config) (status : CpStatus) (a : Asg) : SolveReturn :=
  if status = CpStatus.optimal ∨ status = CpStatus.feasible then
    { ok := true
      schedule := some (extractSchedule cfg a)
      freeWeekends :=
        some ((List.range cfg.num_nurses).map (freeWeekendsCount cfg a)) }
  else { ok := false, schedule := none, freeWeekends := none }

/-! ## Dictionary inputs and the unguarded lookups of solve -/

/-- The inputs as Python dictionaries keyed by person index, before the
outer lookups of solve; mirrors the setup_model parameters. -/
structure RawConfig where
  year : Nat
  month : Nat
  num_nurses : Nat
  num_freelancers : Nat
  max_nurse_hours : List (Nat × Nat)
  min_free_weekends : Nat
  max_consecutive_days : Nat
  nurse_preferences : List (Nat × List ((Nat × String) × Int))
  freelancer_availability : List (Nat × List ((Nat × String) × Nat))
  max_overhours : Nat
  work_rest_ratio : ℚ

/-- A KeyError raised by one of the unguarded dictionary lookups during
constraint building, with the dictionary and the missing key. -/
inductive BuildError
  | keyErrorMaxHours (n : Nat)
  | keyErrorAvailability (fi : Nat)
  | keyErrorPreferences (n : Nat)
deriving DecidableEq

/-- First index below count missing from the association list. -/
def firstMissing {α : Type} (l : List (Nat × α)) (count : Nat) : Option Nat :=
  (List.range count).find? (fun k => (l.lookup k).isNone)

/-- num_days for a raw configuration. -/
def numDaysRaw (rc : RawConfig) : Nat := daysInMonth rc.year rc.month

/-- The dictionary lookups of constraint building in source order:
self.max_nurse_hours[n] (nurse-hours block), then
self.freelancer_availability[f_idx] and self.nurse_preferences[n] (inside
the day loops, hence only reached when at least one day exists). Each is
unguarded in solve, so a missing person index raises KeyError instead of
reaching the solver and returning a failure tuple. -/
def buildLookups (rc : RawConfig) : Except BuildError Unit :=
  match firstMissing rc.max_nurse_hours rc.num_nurses with
  | some n => Except.error (BuildError.keyErrorMaxHours n)
  | none =>
    if 1 ≤ numDaysRaw rc then
      match firstMissing rc.freelancer_availability rc.num_freelancers with
      | some fi => Except.error (BuildError.keyErrorAvailability fi)
      | none =>
        match firstMissing rc.nurse_preferences rc.num_nurses with
        | some n => Except.error (BuildError.keyErrorPreferences n)
        | none => Except.ok ()
    else Except.ok ()

/-! ## Concrete instances used by the witnesses and counterexamples

February 2025 (28 days, four weekend pairs starting at days 0, 7, 14, 21)
with four nurses and no freelancers. The assignment is a rotation in which
morning of day d goes to nurse d mod 4 and afternoon to nurse (d + 2) mod 4,
with four swaps so that nurse j is completely free on weekend pair j, and
one overtime shift (nurse 1, morning of day 0). -/

/-- Morning assignee for the witness roster. -/
def mAsg (d : Nat) : Nat :=
  if d = 0 then 1 else if d = 14 then 1 else d % 4

/-- Afternoon assignee for the witness roster. -/
def pAsg (d : Nat) : Nat :=
  if d = 7 then 2 else if d = 21 then 0 else (d + 2) % 4

/-- Witness configuration: February 2025, 4 nurses, no freelancers. -/
def cfgW : Config where
  year := 2025
  month := 2
  num_nurses := 4
  num_freelancers := 0
  max_nurse_hours := fun _ => 240
  min_free_weekends := 1
  max_consecutive_days := 5
  nurse_preferences := fun _ => []
  freelancer_availability := fun _ => []
  max_overhours := 2
  work_rest_ratio := 3

/-- Witness assignment satisfying every hard constraint of cfgW. -/
def aW : Asg where
  x := fun e d s => if s = 0 then mAsg d == e else pAsg d == e
  ox := fun n d s => n == 1 && d == 0 && s == 0
  reg := fun n => if n = 3 then 13 else 14
  ot := fun n => if n = 1 then 1 else 0
  isFree := fun n w => n == w

/-- An assignment that covers nothing: every variable zero except the
weekend indicators. It violates the coverage constraint everywhere. -/
def aBad : Asg where
  x := fun _ _ _ => false
  ox := fun _ _ _ => false
  reg := fun _ => 0
  ot := fun _ => 0
  isFree := fun _ _ => true

/-- Small configuration for objective evaluations: one nurse, no
freelancers, no preferences, February 2025. -/
def cfg2 : Config where
  year := 2025
  month := 2
  num_nurses := 1
  num_freelancers := 0
  max_nurse_hours := fun _ => 240
  min_free_weekends := 0
  max_consecutive_days := 5
  nurse_preferences := fun _ => []
  freelancer_availability := fun _ => []
  max_overhours := 2
  work_rest_ratio := 3

/-- Assignment with one regular shift counted and nothing else set. -/
def a2 : Asg where
  x := fun _ _ _ => false
  ox := fun _ _ _ => false
  reg := fun _ => 1
  ot := fun _ => 0
  isFree := fun _ _ => false

/-- Assignment with a single free-weekend indicator set and nothing else. -/
def a2f : Asg where
  x := fun _ _ _ => false
  ox := fun _ _ _ => false
  reg := fun _ => 0
  ot := fun _ => 0
  isFree := fun n w => n == 0 && w == 0

/-- Whether a roster cell label denotes work on shift s (0 = morning,
1 = afternoon). -/
def isWorkLabelFor (s : Nat) (lbl : String) : Bool :=
  if s = 0 then lbl == "M" || lbl == "M (S)" else lbl == "P" || lbl == "P (S)"

/-- Number of employees whose roster cell on day d is a work cell for
shift s. -/
def workCellCount (cfg : Config) (a : Asg) (d s : Nat) : Nat :=
  ∑ e in Finset.range (numEmployees cfg),
    bn (isWorkLabelFor s (cellLabel cfg a e d))

/-- The assignment with the regular-shifts variable of nurse n one higher. -/
def bumpReg (a : Asg) (n : Nat) : Asg :=
  { a with reg := Function.update a.reg n (a.reg n + 1) }

/-- The assignment with the overtime-shifts variable of nurse n one higher. -/
def bumpOt (a : Asg) (n : Nat) : Asg :=
  { a with ot := Function.update a.ot n (a.ot n + 1) }

/-- The assignment with the weekend-free indicator of nurse n and pair w
switched on. -/
def setFree (a : Asg) (n w : Nat) : Asg :=
  { a with isFree := fun m v => if m = n ∧ v = w then true else a.isFree m v }

/-- Raw configuration whose nurse_preferences dictionary has no entry for
nurse 0 although num_nurses = 1. -/
def rcNoPrefs : RawConfig where
  year := 2025
  month := 2
  num_nurses := 1
  num_freelancers := 0
  max_nurse_hours := [(0, 240)]
  min_free_weekends := 0
  max_consecutive_days := 5
  nurse_preferences := []
  freelancer_availability := []
  max_overhours := 2
  work_rest_ratio := 3

/-- Raw configuration whose freelancer_availability dictionary has no entry
for freelancer 0 although num_freelancers = 1. -/
def rcNoAvail : RawConfig where
  year := 2025
  month := 2
  num_nurses := 1
  num_freelancers := 1
  max_nurse_hours := [(0, 240)]
  min_free_weekends := 0
  max_consecutive_days := 5
  nurse_preferences := [(0, [])]
  freelancer_availability := []
  max_overhours := 2
  work_rest_ratio := 3

/-- Raw configuration with complete dictionaries. -/
def rcComplete : RawConfig where
  year := 2025
  month := 2
  num_nurses := 1
  num_freelancers := 1
  max_nurse_hours := [(0, 240)]
  min_free_weekends := 0
  max_consecutive_days := 5
  nurse_preferences := [(0, [])]
  freelancer_availability := [(0, [((1, "M"), 1)])]
  max_overhours := 2
  work_rest_ratio := 3

/-- Configuration with one nurse and one freelancer for the freelancer-cost
coefficient evaluation. -/
def cfg3 : Config where
  year := 2025
  month := 2
  num_nurses := 1
  num_freelancers := 1
  max_nurse_hours := fun _ => 240
  min_free_weekends := 0
  max_consecutive_days := 5
  nurse_preferences := fun _ => []
  freelancer_availability := fun _ => [((1, "M"), 1)]
  max_overhours := 2
  work_rest_ratio := 3

/-- Assignment in which only the freelancer works, a single morning shift. -/
def a3 : Asg where
  x := fun e d s => e == 1 && d == 0 && s == 0
  ox := fun _ _ _ => false
  reg := fun _ => 0
  ot := fun _ => 0
  isFree := fun _ _ => false

/-- The binary64 value 2.5 - 2 ^ (-51), the largest double below 5/2. -/
def r0 : ℚ := 5/2 - 1/2^51

/-- The witness configuration with work-rest ratio r0. -/
def cfgR0 : Config := { cfgW with work_rest_ratio := r0 }

/-- Assignment in which employee 0 works the morning shift of the first
ten days and nothing else: ten shifts inside the first 14-day window. -/
def aTen : Asg where
  x := fun e d s => if e = 0 ∧ s = 0 ∧ d < 10 then true else false
  ox := fun _ _ _ => false
  reg := fun _ => 0
  ot := fun _ => 0
  isFree := fun _ _ => false

/-! ## Shared helper lemmas -/

/-- Python int() truncation agrees with the floor on nonnegative rationals. -/
theorem pyTruncInt_eq_floor (q : ℚ) (hq : 0 ≤ q) : pyTruncInt q = ⌊q⌋ := by
  rw [Rat.floor_def]
  exact Int.tdiv_eq_ediv (Rat.num_nonneg.mpr hq) (Int.ofNat_nonneg _)

/-- Rounding to nearest never goes below the floor. -/
theorem roundNearestEven_ge_floor (x : ℚ) : ⌊x⌋ ≤ roundNearestEven x := by
  rw [roundNearestEven]
  split_ifs <;> omega

/-- The scaling power of two written as a unit fraction. -/
theorem two_zpow_sub52 (e : ℤ) (n : ℕ) (h : 52 - e = (n:ℤ)) :
    (2:ℚ) ^ (e - 52) = 1/2 ^ n := by
  have he : e - 52 = -(n:ℤ) := by omega
  rw [he, zpow_neg, zpow_natCast, one_div]

/-- Rounding a positive value to binary64 yields a positive value. -/
theorem flPos_pos (q : ℚ) (hq : 0 < q) : 0 < flPos q := by
  rw [flPos]
  have hb : (0:ℚ) < (2:ℚ) ^ (Int.log 2 q - 52) := zpow_pos (by norm_num) _
  refine mul_pos ?_ hb
  have h1 : (2:ℚ) ^ (Int.log 2 q) ≤ q := by
    exact_mod_cast Int.zpow_log_le_self (b := 2) (by norm_num) hq
  have hx : (1:ℚ) ≤ q / (2:ℚ) ^ (Int.log 2 q - 52) := by
    rw [le_div_iff₀ hb, one_mul]
    calc (2:ℚ) ^ (Int.log 2 q - 52)
        ≤ (2:ℚ) ^ (Int.log 2 q) := by
          apply zpow_le_zpow_right₀ (by norm_num)
          omega
      _ ≤ q := h1
  have hfloor : (1:ℤ) ≤ ⌊q / (2:ℚ) ^ (Int.log 2 q - 52)⌋ := by
    exact_mod_cast Int.le_floor.mpr (by exact_mod_cast hx)
  have hge := roundNearestEven_ge_floor (q / (2:ℚ) ^ (Int.log 2 q - 52))
  have h2 : (0:ℤ) < roundNearestEven (q / (2:ℚ) ^ (Int.log 2 q - 52)) :=
    lt_of_lt_of_le one_pos (le_trans hfloor hge)
  exact_mod_cast h2

/-- Binary64 rounding preserves positivity. -/
theorem fl_pos (q : ℚ) (hq : 0 < q) : 0 < fl q := by
  rw [fl, if_neg (not_lt.mpr hq.le), if_neg hq.ne']
  exact flPos_pos q hq

/-- Binary64 rounding preserves nonnegativity. -/
theorem fl_nonneg (q : ℚ) (hq : 0 ≤ q) : 0 ≤ fl q := by
  rcases eq_or_lt_of_le hq with h | h
  · rw [fl, ← h]
    norm_num
  · exact (fl_pos q h).le

/-- Evaluation rule for fl: with the binade of q certified by the two
bounds, fl q is the rounded scaled mantissa times the scale. -/
theorem fl_eq_of (q : ℚ) (e m : ℤ) (h1 : (2:ℚ) ^ e ≤ q)
    (h2 : q < (2:ℚ) ^ (e + 1))
    (hm : roundNearestEven (q / (2:ℚ) ^ (e - 52)) = m) :
    fl q = (m : ℚ) * (2:ℚ) ^ (e - 52) := by
  have hq : 0 < q := lt_of_lt_of_le (zpow_pos (by norm_num) _) h1
  have hlog : Int.log 2 q = e := by
    have hle : e ≤ Int.log 2 q :=
      (Int.zpow_le_iff_le_log (by norm_num) hq).mp (by exact_mod_cast h1)
    have hlt : Int.log 2 q < e + 1 :=
      (Int.lt_zpow_iff_log_lt (by norm_num) hq).mp (by exact_mod_cast h2)
    omega
  rw [fl, if_neg (not_lt.mpr hq.le), if_neg hq.ne', flPos, hlog, hm]

/-- A value that is an integer multiple of its scale is a double and is
rounded to itself. -/
theorem fl_exact (q : ℚ) (e k : ℤ) (h1 : (2:ℚ) ^ e ≤ q)
    (h2 : q < (2:ℚ) ^ (e + 1)) (hk : q = (k : ℚ) * (2:ℚ) ^ (e - 52)) :
    fl q = q := by
  have hb : (0:ℚ) < (2:ℚ) ^ (e - 52) := zpow_pos (by norm_num) _
  have hx : q / (2:ℚ) ^ (e - 52) = (k : ℚ) := by
    rw [hk, mul_div_assoc, div_self hb.ne', mul_one]
  have hm : roundNearestEven (q / (2:ℚ) ^ (e - 52)) = k := by
    rw [roundNearestEven, hx, Int.floor_intCast]
    norm_num
  rw [fl_eq_of q e k h1 h2 hm, ← hk]

/-- r0 is exactly representable in binary64. -/
theorem fl_r0 : fl r0 = r0 := by
  apply fl_exact r0 1 (5 * 2^50 - 1)
  · norm_num [r0]
  · norm_num [r0]
  · rw [two_zpow_sub52 1 51 (by norm_num)]
    push_cast
    norm_num [r0]

/-- 1 + r0 is computed exactly in binary64. -/
theorem fl_one_add_r0 : fl (1 + r0) = 1 + r0 := by
  apply fl_exact (1 + r0) 1 (7 * 2^50 - 1)
  · norm_num [r0]
  · norm_num [r0]
  · rw [two_zpow_sub52 1 51 (by norm_num)]
    push_cast
    norm_num [r0]

/-- 42 is a double. -/
theorem fl_42 : fl 42 = 42 := by
  apply fl_exact 42 5 (42 * 2^47)
  · norm_num
  · norm_num
  · rw [two_zpow_sub52 5 47 (by norm_num)]
    push_cast
    norm_num

/-- 4 is a double. -/
theorem fl_4 : fl 4 = 4 := by
  apply fl_exact 4 2 (2^52)
  · norm_num
  · norm_num
  · rw [two_zpow_sub52 2 50 (by norm_num)]
    push_cast
    norm_num

/-- 10.5 is a double. -/
theorem fl_21_2 : fl (21/2) = 21/2 := by
  apply fl_exact (21/2) 3 (21 * 2^48)
  · norm_num
  · norm_num
  · rw [two_zpow_sub52 3 49 (by norm_num)]
    push_cast
    norm_num

/-- The product 14 * r0 rounds down to 35 - 2 ^ (-47): the exact value
35 - 7/2 ^ 50 sits 1/8 of an ulp above that double. -/
theorem fl_14_r0 : fl (14 * r0) = 35 - 1/2^47 := by
  have hx : (14 * r0) / (2:ℚ) ^ ((5:ℤ) - 52) = 35 * 2^47 - 7/8 := by
    rw [two_zpow_sub52 5 47 (by norm_num)]
    rw [show (14:ℚ) * r0 = 35 - 7/2^50 from by norm_num [r0]]
    norm_num
  have hfl : ⌊(35 * 2^47 - 7/8 : ℚ)⌋ = 35 * 2^47 - 1 := by
    rw [Int.floor_eq_iff]
    constructor
    · push_cast
      norm_num
    · push_cast
      norm_num
  have hm : roundNearestEven ((14 * r0) / (2:ℚ) ^ ((5:ℤ) - 52))
      = 35 * 2^47 - 1 := by
    rw [roundNearestEven, hx, hfl]
    rw [if_pos (by push_cast; norm_num)]
  rw [fl_eq_of (14 * r0) 5 (35 * 2^47 - 1) (by norm_num [r0])
      (by norm_num [r0]) hm]
  rw [two_zpow_sub52 5 47 (by norm_num)]
  push_cast
  norm_num

/-- The float division (35 - 2 ^ (-47)) / (1 + r0) rounds up to exactly 10:
the exact quotient lies less than half an ulp below 10. -/
theorem fl_quot_r0 : fl ((35 - 1/2^47) / (1 + r0)) = 10 := by
  have hD : (0:ℚ) < 7 * 2^50 - 1 := by norm_num
  have hq : (35 - 1/2^47 : ℚ) / (1 + r0)
      = (35 * 2^51 - 16) / (7 * 2^50 - 1) := by
    rw [show (1:ℚ) + r0 = (7 * 2^50 - 1) / 2^51 from by norm_num [r0]]
    rw [div_div_eq_mul_div]
    norm_num
  have hx : ((35 - 1/2^47 : ℚ) / (1 + r0)) / (2:ℚ) ^ ((3:ℤ) - 52)
      = (35 * 2^51 - 16) * 2^49 / (7 * 2^50 - 1) := by
    rw [hq, two_zpow_sub52 3 49 (by norm_num), div_div_eq_mul_div, div_one,
        div_mul_eq_mul_div]
  have hfl : ⌊((35 * 2^51 - 16) * 2^49 / (7 * 2^50 - 1) : ℚ)⌋
      = 10 * 2^49 - 1 := by
    rw [Int.floor_eq_iff]
    constructor
    · rw [le_div_iff₀ hD]
      push_cast
      norm_num
    · rw [div_lt_iff₀ hD]
      push_cast
      norm_num
  have key : ((10 * 2^49 - 1 : ℤ) : ℚ) + 1/2
      < (35 * 2^51 - 16) * 2^49 / (7 * 2^50 - 1) := by
    rw [lt_div_iff₀ hD]
    push_cast
    norm_num
  have hm : roundNearestEven
      (((35 - 1/2^47) / (1 + r0)) / (2:ℚ) ^ ((3:ℤ) - 52)) = 10 * 2^49 := by
    rw [roundNearestEven, hx, hfl, if_neg (by linarith), if_pos (by linarith)]
    ring
  rw [fl_eq_of ((35 - 1/2^47) / (1 + r0)) 3 (10 * 2^49)
      (by rw [hq, le_div_iff₀ hD]; norm_num)
      (by rw [hq, div_lt_iff₀ hD]; norm_num) hm]
  rw [two_zpow_sub52 3 49 (by norm_num)]
  push_cast
  norm_num

/-- The float evaluation of the window quotient at the double r0. -/
theorem floatQuotient_r0 : floatRatioQuotient r0 = 10 := by
  rw [floatRatioQuotient, fl_14_r0, fl_one_add_r0, fl_quot_r0]

/-- The float evaluation of the window quotient at ratio 3 is exact. -/
theorem floatQuotient_3 : floatRatioQuotient 3 = 21/2 := by
  rw [floatRatioQuotient,
      show (14:ℚ) * 3 = 42 from by norm_num,
      show (1:ℚ) + 3 = 4 from by norm_num, fl_42, fl_4,
      show (42:ℚ) / 4 = 21/2 from by norm_num, fl_21_2]

/-- The 14-day window cap of the witness configuration (ratio 3). -/
theorem maxW_cfgW : maxWorkDaysInWindow cfgW = 10 := by
  rw [maxWorkDaysInWindow, show cfgW.work_rest_ratio = 3 from rfl,
      floatQuotient_3, pyTruncInt_eq_floor _ (by norm_num)]
  norm_num

/-- The 14-day window cap of the r0 configuration: the float evaluation
makes it 10, although the exact quotient has floor 9. -/
theorem maxW_cfgR0 : maxWorkDaysInWindow cfgR0 = 10 := by
  rw [maxWorkDaysInWindow, show cfgR0.work_rest_ratio = r0 from rfl,
      floatQuotient_r0, pyTruncInt_eq_floor _ (by norm_num)]
  norm_num

/-- The witness assignment satisfies every hard constraint of the model. -/
theorem cfgW_model : modelConstraints cfgW aW := by
  refine ⟨by decide, by decide, by decide, by decide, by decide, by decide,
    ?_, by decide, by decide, by decide⟩
  unfold windowC
  simp only [maxW_cfgW]
  decide

/-- The weekend pairs of February 2025 (cfg2). -/
theorem wp_cfg2 : weekendPairs cfg2 = [(0, 1), (7, 8), (14, 15), (21, 22)] := by
  decide

/-! ## Claims -/

/-- C1, counterexample: the success branch of solve returns ok = true for an
OPTIMAL status together with an assignment that covers no (day, shift) at
all, so the hard-constraint re-check the claim describes cannot have run:
no code between extraction and return inspects the roster. -/
theorem C1_counterexample :
    (solveReturn cfgW CpStatus.optimal aBad).ok = true ∧
    ¬ coverageC cfgW aBad := by
  exact ⟨rfl, by decide⟩

/-- C1 (amended): solve performs no post-solve re-check of the hard
constraints. Whenever the backend status is OPTIMAL or FEASIBLE, solve
returns success with the extracted roster unconditionally; no Invalid
outcome or rule tuple exists, and correctness of the returned roster rests
solely on the backend satisfying the model constraints. -/
theorem C1_success_without_recheck (cfg : Config) (st : CpStatus) (a : Asg)
    (h : st = CpStatus.optimal ∨ st = CpStatus.feasible) :
    (solveReturn cfg st a).ok = true ∧
    (solveReturn cfg st a).schedule = some (extractSchedule cfg a) := by
  rcases h with h | h <;> subst h <;> simp [solveReturn]

/-- Witness for C1: concrete instantiation at the February 2025 data. -/
theorem C1_success_without_recheck_witness :
    (solveReturn cfgW CpStatus.optimal aW).ok = true ∧
    (solveReturn cfgW CpStatus.optimal aW).schedule =
      some (extractSchedule cfgW aW) :=
  C1_success_without_recheck cfgW CpStatus.optimal aW (Or.inl rfl)

/-- C2, counterexample: on concrete instances the objective built by solve
differs from the objective with the 40 / 3000-per-weekend weights of the
claim: a single regular shift contributes -35 (not -40), a single freelancer
shift contributes -105/2 = -35 times 1.5 (not -60), and a single free
weekend among four pairs contributes 625 = 2500/4 (not 750 = 3000/4). -/
theorem C2_counterexample :
    objective cfg2 a2 = -35 ∧ specObjective cfg2 a2 = -40 ∧
    objective cfg3 a3 = -105 / 2 ∧ specObjective cfg3 a3 = -60 ∧
    objective cfg2 a2f = 625 ∧ specObjective cfg2 a2f = 750 ∧
    objective cfg2 a2 ≠ specObjective cfg2 a2 ∧
    objective cfg2 a2f ≠ specObjective cfg2 a2f := by
  have h1 : objective cfg2 a2 = -35 := by
    simp [objective, prefTerms, costTerms, weekendTerms, balanceTerms, cfg2,
      a2, freelancerShifts, nurse_regular_cost, nurse_overhours_cost, bn,
      Finset.sum_range_one]
  have h2 : specObjective cfg2 a2 = -40 := by
    simp [specObjective, prefTerms, specCostTerms, specWeekendTerms,
      balanceTerms, cfg2, a2, freelancerShifts, nurse_regular_cost,
      nurse_overhours_cost, bn, Finset.sum_range_one]
  have hpref3 : prefTerms cfg3 a3 = 0 := by
    simp [prefTerms, cfg3, a3, bn]
  have hweek3 : weekendTerms cfg3 a3 = 0 := by
    simp [weekendTerms, cfg3, a3, bn]
  have hbal3 : balanceTerms cfg3 a3 = 0 := by
    simp [balanceTerms, cfg3]
  have h3 : objective cfg3 a3 = -105 / 2 := by
    rw [objective, hpref3, hweek3, hbal3, costTerms,
      show cfg3.num_nurses = 1 from rfl,
      show cfg3.num_freelancers = 1 from rfl,
      Finset.sum_range_one, Finset.sum_range_one, Finset.sum_range_one,
      show freelancerShifts cfg3 a3 0 = 1 from by decide,
      show a3.reg 0 = 0 from rfl, show a3.ot 0 = 0 from rfl]
    norm_num [nurse_regular_cost, nurse_overhours_cost, freelancer_cost]
  have h4 : specObjective cfg3 a3 = -60 := by
    rw [specObjective, hpref3, hbal3, specCostTerms, specWeekendTerms,
      show cfg3.num_nurses = 1 from rfl,
      show cfg3.num_freelancers = 1 from rfl,
      Finset.sum_range_one, Finset.sum_range_one, Finset.sum_range_one,
      Finset.sum_range_one,
      show freelancerShifts cfg3 a3 0 = 1 from by decide,
      show a3.reg 0 = 0 from rfl, show a3.ot 0 = 0 from rfl]
    simp [a3, bn]
    norm_num [nurse_regular_cost, nurse_overhours_cost, freelancer_cost]
  have h5 : objective cfg2 a2f = 625 := by
    simp only [objective, prefTerms, costTerms, weekendTerms, balanceTerms,
      freelancerShifts, freeWeekendsScale, maxFreeWeekends, wp_cfg2]
    norm_num [cfg2, a2f, bn, Finset.sum_range_succ]
  have h6 : specObjective cfg2 a2f = 750 := by
    simp only [specObjective, prefTerms, specCostTerms, specWeekendTerms,
      balanceTerms, freelancerShifts, maxFreeWeekends, wp_cfg2]
    norm_num [cfg2, a2f, bn, Finset.sum_range_succ]
  refine ⟨h1, h2, h3, h4, h5, h6, ?_, ?_⟩
  · rw [h1, h2]; norm_num
  · rw [h5, h6]; norm_num

/-- Adding one to an entry of a nonnegative-integer variable changes a
negated 35-weighted cost sum by exactly minus 35 times the unit cost. -/
theorem sum_neg_mul_update (N n : Nat) (hn : n < N) (f : Nat → Nat) (c : ℚ) :
    (∑ m in Finset.range N,
        -((Function.update f n (f n + 1) m : ℚ) * c) * 35)
      = (∑ m in Finset.range N, -((f m : ℚ) * c) * 35) - 35 * c := by
  have h : ∀ m ∈ Finset.range N,
      -((Function.update f n (f n + 1) m : ℚ) * c) * 35
        = -((f m : ℚ) * c) * 35 + (if m = n then -(35 * c) else 0) := by
    intro m _
    by_cases hm : m = n
    · subst hm
      rw [Function.update_same, if_pos rfl]
      push_cast
      ring
    · rw [Function.update_noteq hm, if_neg hm, add_zero]
  rw [Finset.sum_congr rfl h, Finset.sum_add_distrib,
      Finset.sum_ite_eq' (Finset.range N) n (fun _ => -(35 * c)),
      if_pos (Finset.mem_range.mpr hn)]
  ring

/-- Effect of one extra regular shift of nurse n on the cost terms. -/
theorem costTerms_bumpReg (cfg : Config) (a : Asg) (n : Nat)
    (hn : n < cfg.num_nurses) :
    costTerms cfg (bumpReg a n) = costTerms cfg a - 35 * nurse_regular_cost := by
  show (∑ m in Finset.range cfg.num_nurses,
          -((Function.update a.reg n (a.reg n + 1) m : ℚ) *
            nurse_regular_cost) * 35) +
       (∑ m in Finset.range cfg.num_nurses,
          -((a.ot m : ℚ) * nurse_overhours_cost) * 35) +
       (∑ fi in Finset.range cfg.num_freelancers,
          -((freelancerShifts cfg a fi : ℚ) * freelancer_cost) * 35)
      = costTerms cfg a - 35 * nurse_regular_cost
  rw [costTerms, sum_neg_mul_update cfg.num_nurses n hn a.reg nurse_regular_cost]
  ring

/-- Effect of one extra overtime shift of nurse n on the cost terms. -/
theorem costTerms_bumpOt (cfg : Config) (a : Asg) (n : Nat)
    (hn : n < cfg.num_nurses) :
    costTerms cfg (bumpOt a n) = costTerms cfg a - 35 * nurse_overhours_cost := by
  show (∑ m in Finset.range cfg.num_nurses,
          -((a.reg m : ℚ) * nurse_regular_cost) * 35) +
       (∑ m in Finset.range cfg.num_nurses,
          -((Function.update a.ot n (a.ot n + 1) m : ℚ) *
            nurse_overhours_cost) * 35) +
       (∑ fi in Finset.range cfg.num_freelancers,
          -((freelancerShifts cfg a fi : ℚ) * freelancer_cost) * 35)
      = costTerms cfg a - 35 * nurse_overhours_cost
  rw [costTerms, sum_neg_mul_update cfg.num_nurses n hn a.ot nurse_overhours_cost]
  ring

/-- Effect of switching on one weekend-free indicator on the weekend terms. -/
theorem weekendTerms_setFree (cfg : Config) (a : Asg) (n w : Nat)
    (hn : n < cfg.num_nurses) (hw : w < (weekendPairs cfg).length)
    (hfree : a.isFree n w = false) :
    weekendTerms cfg (setFree a n w) =
      weekendTerms cfg a + freeWeekendsScale cfg := by
  show (∑ m in Finset.range cfg.num_nurses,
          ∑ v in Finset.range (weekendPairs cfg).length,
            (bn (if m = n ∧ v = w then true else a.isFree m v) : ℚ) *
              freeWeekendsScale cfg)
      = weekendTerms cfg a + freeWeekendsScale cfg
  have h : ∀ m ∈ Finset.range cfg.num_nurses,
      ∀ v ∈ Finset.range (weekendPairs cfg).length,
      (bn (if m = n ∧ v = w then true else a.isFree m v) : ℚ) *
          freeWeekendsScale cfg
        = (bn (a.isFree m v) : ℚ) * freeWeekendsScale cfg +
          (if m = n then (1 : ℚ) else 0) *
            (if v = w then freeWeekendsScale cfg else 0) := by
    intro m _ v _
    by_cases hm : m = n
    · by_cases hv : v = w
      · subst hm; subst hv
        rw [if_pos ⟨rfl, rfl⟩, if_pos rfl, if_pos rfl, hfree]
        simp [bn]
      · rw [if_neg (fun hc => hv hc.2), if_neg hv, mul_zero, add_zero]
    · rw [if_neg (fun hc => hm hc.1), if_neg hm, zero_mul, add_zero]
  rw [Finset.sum_congr rfl (fun m hm => Finset.sum_congr rfl (h m hm))]
  have hsplit : ∀ m ∈ Finset.range cfg.num_nurses,
      (∑ v in Finset.range (weekendPairs cfg).length,
        ((bn (a.isFree m v) : ℚ) * freeWeekendsScale cfg +
          (if m = n then (1 : ℚ) else 0) *
            (if v = w then freeWeekendsScale cfg else 0)))
      = (∑ v in Finset.range (weekendPairs cfg).length,
          (bn (a.isFree m v) : ℚ) * freeWeekendsScale cfg) +
        (if m = n then (1 : ℚ) else 0) *
          (∑ v in Finset.range (weekendPairs cfg).length,
            (if v = w then freeWeekendsScale cfg else 0)) := by
    intro m _
    rw [Finset.sum_add_distrib, Finset.mul_sum]
  rw [Finset.sum_congr rfl hsplit, Finset.sum_add_distrib]
  rw [Finset.sum_ite_eq' (Finset.range (weekendPairs cfg).length) w
        (fun _ => freeWeekendsScale cfg),
      if_pos (Finset.mem_range.mpr hw)]
  have hone : (∑ m in Finset.range cfg.num_nurses,
      (if m = n then (1 : ℚ) else 0) * freeWeekendsScale cfg)
      = freeWeekendsScale cfg := by
    rw [← Finset.sum_mul,
        Finset.sum_ite_eq' (Finset.range cfg.num_nurses) n (fun _ => (1 : ℚ)),
        if_pos (Finset.mem_range.mpr hn), one_mul]
  rw [hone, weekendTerms]

/-- C2 (amended): in the objective built by solve, each additional regular
shift of a salaried nurse changes the objective by -35 times c_reg, each
additional overtime shift by -35 times c_ot, and each free-weekend
indicator switched on adds 2500/WeekendPairs; the implementation uses the
alternate 30/35/25/10 weight profile, not 40 and 3000/WeekendPairs. -/
theorem C2_weight_profile (cfg : Config) (a : Asg) (n : Nat)
    (hn : n < cfg.num_nurses) :
    objective cfg (bumpReg a n) =
      objective cfg a - 35 * nurse_regular_cost ∧
    objective cfg (bumpOt a n) =
      objective cfg a - 35 * nurse_overhours_cost ∧
    (∀ w, w < (weekendPairs cfg).length → a.isFree n w = false →
      objective cfg (setFree a n w) =
        objective cfg a + 2500 / (maxFreeWeekends cfg : ℚ)) := by
  refine ⟨?_, ?_, ?_⟩
  · have hp : prefTerms cfg (bumpReg a n) = prefTerms cfg a := rfl
    have hw : weekendTerms cfg (bumpReg a n) = weekendTerms cfg a := rfl
    have hb : balanceTerms cfg (bumpReg a n) = balanceTerms cfg a := rfl
    rw [objective, objective, hp, hw, hb, costTerms_bumpReg cfg a n hn]
    ring
  · have hp : prefTerms cfg (bumpOt a n) = prefTerms cfg a := rfl
    have hw : weekendTerms cfg (bumpOt a n) = weekendTerms cfg a := rfl
    have hb : balanceTerms cfg (bumpOt a n) = balanceTerms cfg a := rfl
    rw [objective, objective, hp, hw, hb, costTerms_bumpOt cfg a n hn]
    ring
  · intro w hw hfree
    have hp : prefTerms cfg (setFree a n w) = prefTerms cfg a := rfl
    have hc : costTerms cfg (setFree a n w) = costTerms cfg a := rfl
    have hb : balanceTerms cfg (setFree a n w) = balanceTerms cfg a := rfl
    rw [objective, objective, hp, hc, hb,
        weekendTerms_setFree cfg a n w hn hw hfree, freeWeekendsScale]
    ring

/-- Witness for C2: concrete instantiation at the one-nurse February 2025
configuration. -/
theorem C2_weight_profile_witness :
    objective cfg2 (bumpReg a2 0) =
      objective cfg2 a2 - 35 * nurse_regular_cost ∧
    objective cfg2 (setFree a2 0 0) =
      objective cfg2 a2 + 2500 / (maxFreeWeekends cfg2 : ℚ) := by
  refine ⟨(C2_weight_profile cfg2 a2 0 (by decide)).1, ?_⟩
  exact (C2_weight_profile cfg2 a2 0 (by decide)).2.2 0
    (by rw [wp_cfg2]; decide) rfl

/-- C3, counterexample: the February 2025 witness assignment satisfies every
hard constraint, yet the roster cell of nurse 1 on day 0 is the string
M (S) with a space, which is not among the six labels of the claim; the
claimed overtime label M(S) without a space never occurs. -/
theorem C3_counterexample :
    modelConstraints cfgW aW ∧
    cellLabel cfgW aW 1 0 = "M (S)" ∧
    "M (S)" ∉ (["M", "P", "M(S)", "P(S)", "R", "F"] : List String) :=
  ⟨cfgW_model, by decide, by decide⟩

/-- C3 (amended): every roster cell is one of the six case-sensitive strings
M, P, M (S), P (S), R, F (with a space before the parenthesis in the two
overtime labels), and an overtime morning or afternoon shift of a nurse is
labelled exactly M (S) respectively P (S). -/
theorem C3_label_alphabet (cfg : Config) (a : Asg) (e d : Nat) :
    cellLabel cfg a e d ∈
      (["M", "P", "M (S)", "P (S)", "R", "F"] : List String) ∧
    (e < cfg.num_nurses → a.x e d 0 = true → a.ox e d 0 = true →
      cellLabel cfg a e d = "M (S)") ∧
    (e < cfg.num_nurses → a.x e d 0 = false → a.x e d 1 = true →
      a.ox e d 1 = true → cellLabel cfg a e d = "P (S)") := by
  refine ⟨?_, ?_, ?_⟩
  · unfold cellLabel nurseCell freelancerCell
    split_ifs <;> simp
  · intro he h0 hox
    simp [cellLabel, he, nurseCell, h0, hox]
  · intro he h0 h1 hox
    simp [cellLabel, he, nurseCell, h0, h1, hox]

/-- Witness for C3: concrete instantiation at the February 2025 data. -/
theorem C3_label_alphabet_witness :
    cellLabel cfgW aW 1 0 ∈
      (["M", "P", "M (S)", "P (S)", "R", "F"] : List String) ∧
    cellLabel cfgW aW 1 0 = "M (S)" :=
  ⟨(C3_label_alphabet cfgW aW 1 0).1,
   (C3_label_alphabet cfgW aW 1 0).2.1 (by decide) (by decide) (by decide)⟩

/-- C9, counterexample: the wall-clock limit set by solve is the closed
constant 300; solve and setup_model take no time-limit argument, so no
caller input can produce the limit 120 that the configurable
time_limit_seconds of the claim would give. -/
theorem C9_counterexample :
    max_time_in_seconds = 300 ∧ specTimeLimit (some 120) = 120 ∧
    max_time_in_seconds ≠ specTimeLimit (some 120) := by
  refine ⟨rfl, rfl, ?_⟩
  norm_num [max_time_in_seconds, specTimeLimit]

/-- C9 (amended): the solver driver applies a fixed wall-clock limit of 300
seconds; the default agrees with the spec (specTimeLimit none) but the
limit is a constant of solve and is not configurable by the caller. -/
theorem C9_fixed_time_limit :
    max_time_in_seconds = 300 ∧ max_time_in_seconds = specTimeLimit none :=
  ⟨rfl, rfl⟩

/-- C10: the outer dictionary lookups of solve are unguarded. With a
preferences dictionary missing nurse 0, constraint building stops with a
KeyError on nurse_preferences; with an availability dictionary missing
freelancer 0 it stops with a KeyError on freelancer_availability (raised
instead of any failure return); with complete dictionaries, building
reaches the solver. -/
theorem C10_unguarded_lookups :
    buildLookups rcNoPrefs =
      Except.error (BuildError.keyErrorPreferences 0) ∧
    buildLookups rcNoAvail =
      Except.error (BuildError.keyErrorAvailability 0) ∧
    buildLookups rcComplete = Except.ok () :=
  ⟨rfl, rfl, rfl⟩


/-- Expansion of a sum over the two shifts. -/
theorem sum_range_two (f : Nat → Nat) : (∑ s in Finset.range 2, f s) = f 0 + f 1 := by
  simp [Finset.sum_range_succ]

/-- The two linearization inequalities force the weekend-free indicator to
be exactly the flag for zero weekend shifts. -/
theorem weekendLin_isFree_iff (cfg : Config) (a : Asg) (n w : Nat)
    (hn : n < cfg.num_nurses) (hw : w < (weekendPairs cfg).length)
    (h : weekendLinC cfg a) :
    (a.isFree n w = true ↔ weekendShiftCount cfg a n w = 0) := by
  obtain ⟨hle, hge⟩ := h n (Finset.mem_range.mpr hn) w (Finset.mem_range.mpr hw)
  cases hf : a.isFree n w with
  | false =>
      rw [hf] at hge
      simp [bn] at hge
      constructor
      · intro hc
        exact absurd hc (by decide)
      · intro h0
        exfalso
        omega
  | true =>
      rw [hf] at hle
      simp [bn] at hle
      constructor
      · intro _
        omega
      · intro _
        rfl

/-- Counting with countP equals summing 0/1 values over positions. -/
theorem countP_eq_sum_range {α : Type} (l : List α) (p : α → Bool) (z : α) :
    l.countP p = ∑ i in Finset.range l.length, bn (p (l.getD i z)) := by
  induction l with
  | nil => simp
  | cons a l ih =>
      rw [List.countP_cons, List.length_cons, Finset.sum_range_succ']
      simp only [List.getD_cons_succ, List.getD_cons_zero]
      rw [ih]
      simp [bn]

/-- Truth table of the sat_free and sun_free test of the assembler. -/
theorem pairFree_bool (b1 b2 b3 b4 : Bool) :
    (((!b1 && !b2) && (!b3 && !b4)) = true ↔
      (bn b1 + bn b2) + (bn b3 + bn b4) = 0) := by
  cases b1 <;> cases b2 <;> cases b3 <;> cases b4 <;> simp [bn]

/-- A weekend pair is counted free by the assembler exactly when the nurse
works no shift on either day. -/
theorem pairIsFree_iff_count (cfg : Config) (a : Asg) (n w : Nat) :
    (pairIsFree a n ((weekendPairs cfg).getD w (0, 0)) = true ↔
      weekendShiftCount cfg a n w = 0) := by
  unfold pairIsFree weekendShiftCount
  rw [sum_range_two, sum_range_two]
  exact pairFree_bool _ _ _ _

/-- Under the linearization constraints, the free-weekend count recomputed
from the shift values equals the sum of the indicator variables. -/
theorem freeWeekendsCount_eq_sum (cfg : Config) (a : Asg) (n : Nat)
    (hn : n < cfg.num_nurses) (h : weekendLinC cfg a) :
    freeWeekendsCount cfg a n =
      ∑ w in Finset.range (weekendPairs cfg).length, bn (a.isFree n w) := by
  rw [freeWeekendsCount,
      countP_eq_sum_range (weekendPairs cfg) (pairIsFree a n) (0, 0)]
  apply Finset.sum_congr rfl
  intro w hw
  have h1 := weekendLin_isFree_iff cfg a n w hn (Finset.mem_range.mp hw) h
  have h2 := pairIsFree_iff_count cfg a n w
  congr 1
  cases hp : pairIsFree a n ((weekendPairs cfg).getD w (0, 0)) <;>
  cases hf : a.isFree n w
  · rfl
  · exfalso
    rw [hp] at h2
    rw [hf] at h1
    exact absurd (h2.mpr (h1.mp rfl)) (by decide)
  · exfalso
    rw [hp] at h2
    rw [hf] at h1
    exact absurd (h1.mpr (h2.mp rfl)) (by decide)
  · rfl

/-- C5: for every nurse n and weekend pair w, the two linear constraints of
solve force the weekend-free indicator to be 1 exactly when the number of
shifts n works on that Saturday and Sunday is 0, in every assignment that
satisfies them. -/
theorem C5_weekend_linearization (cfg : Config) (a : Asg) (n w : Nat)
    (hn : n < cfg.num_nurses) (hw : w < (weekendPairs cfg).length)
    (h : weekendLinC cfg a) :
    (a.isFree n w = true ↔ weekendShiftCount cfg a n w = 0) :=
  weekendLin_isFree_iff cfg a n w hn hw h

/-- Witness for C5: concrete instantiation at the February 2025 data. -/
theorem C5_weekend_linearization_witness :
    (aW.isFree 0 0 = true ↔ weekendShiftCount cfgW aW 0 0 = 0) :=
  C5_weekend_linearization cfgW aW 0 0 (by decide) (by decide) (by decide)

/-- C6: in every assignment accepted by the model for a horizon with at
least one weekend pair, the free-weekend count recomputed from the shift
values is at least min_free_weekends for every nurse; for a horizon with no
weekend pair the minimum-free-weekends constraint holds vacuously for every
assignment (it is not added). -/
theorem C6_min_free_weekends (cfg : Config) :
    (∀ a, modelConstraints cfg a → ∀ n, n < cfg.num_nurses →
      1 ≤ (weekendPairs cfg).length →
      cfg.min_free_weekends ≤ freeWeekendsCount cfg a n) ∧
    (weekendPairs cfg = [] → ∀ a, minFreeWeekendsC cfg a) := by
  constructor
  · intro a h n hn hlen
    obtain ⟨-, -, -, -, -, -, -, -, hlin, hmin⟩ := h
    have hne : weekendPairs cfg ≠ [] := by
      intro hnil
      rw [hnil] at hlen
      simp at hlen
    have hmin' := hmin n (Finset.mem_range.mpr hn) hne
    rw [freeWeekendsCount_eq_sum cfg a n hn hlin]
    exact hmin'
  · intro hnil a n hn hne
    exact absurd hnil hne

/-- Witness for C6: concrete instantiation at the February 2025 data, where
min_free_weekends = 1 and nurse 0 is free on the first weekend pair. -/
theorem C6_min_free_weekends_witness :
    cfgW.min_free_weekends ≤ freeWeekendsCount cfgW aW 0 :=
  (C6_min_free_weekends cfgW).1 aW cfgW_model 0 (by decide) (by decide)


/-- The at-most-one constraint at a single (employee, day). -/
theorem atMostOne_pair (cfg : Config) (a : Asg) (h : atMostOneC cfg a)
    (e d : Nat) (he : e < numEmployees cfg) (hd : d < numDays cfg) :
    bn (a.x e d 0) + bn (a.x e d 1) ≤ 1 := by
  have h1 := h e (Finset.mem_range.mpr he) d (Finset.mem_range.mpr hd)
  rw [sum_range_two] at h1
  exact h1

/-- Truth table of the nurse cell label against the work predicate. -/
theorem nurseLabel_work_bool (x0 x1 ox0 ox1 hol : Bool)
    (hp : bn x0 + bn x1 ≤ 1) :
    (isWorkLabelFor 0 (if x0 then (if ox0 then "M (S)" else "M")
        else if x1 then (if ox1 then "P (S)" else "P")
        else if hol then "F" else "R") = x0) ∧
    (isWorkLabelFor 1 (if x0 then (if ox0 then "M (S)" else "M")
        else if x1 then (if ox1 then "P (S)" else "P")
        else if hol then "F" else "R") = x1) := by
  cases x0 <;> cases x1 <;> cases ox0 <;> cases ox1 <;> cases hol <;>
    revert hp <;> decide

/-- Truth table of the freelancer cell label against the work predicate. -/
theorem freelancerLabel_work_bool (x0 x1 : Bool) (hp : bn x0 + bn x1 ≤ 1) :
    (isWorkLabelFor 0 (if x0 then "M" else if x1 then "P" else "R") = x0) ∧
    (isWorkLabelFor 1 (if x0 then "M" else if x1 then "P" else "R") = x1) := by
  cases x0 <;> cases x1 <;> revert hp <;> decide

/-- Under the at-most-one constraint, a roster cell is a work label for
shift s exactly when the corresponding shift boolean is set. -/
theorem work_label_eq (cfg : Config) (a : Asg) (h : atMostOneC cfg a)
    (e d s : Nat) (he : e < numEmployees cfg) (hd : d < numDays cfg)
    (hs : s < 2) :
    isWorkLabelFor s (cellLabel cfg a e d) = a.x e d s := by
  have hpair := atMostOne_pair cfg a h e d he hd
  have hcase : s = 0 ∨ s = 1 := by omega
  by_cases hn : e < cfg.num_nurses
  · have hb := nurseLabel_work_bool (a.x e d 0) (a.x e d 1) (a.ox e d 0)
      (a.ox e d 1) (isHolidayDay cfg e d) hpair
    rw [cellLabel, if_pos hn]
    rcases hcase with rfl | rfl
    · exact hb.1
    · exact hb.2
  · have he' : cfg.num_nurses + (e - cfg.num_nurses) = e := by omega
    have hb := freelancerLabel_work_bool (a.x e d 0) (a.x e d 1) hpair
    rw [cellLabel, if_neg hn, freelancerCell, he']
    rcases hcase with rfl | rfl
    · exact hb.1
    · exact hb.2

/-- C4: every assignment accepted by the constraint model assigns exactly
one employee to each (day, shift) and each employee at most one shift per
day; consequently every (day, shift) of the extracted roster is covered by
exactly one work cell. -/
theorem C4_coverage (cfg : Config) (a : Asg) (h : modelConstraints cfg a) :
    (∀ d, d < numDays cfg → ∀ s, s < 2 →
      (∑ e in Finset.range (numEmployees cfg), bn (a.x e d s)) = 1 ∧
      workCellCount cfg a d s = 1) ∧
    (∀ e, e < numEmployees cfg → ∀ d, d < numDays cfg →
      bn (a.x e d 0) + bn (a.x e d 1) ≤ 1) := by
  obtain ⟨hcov, hamo, -, -, -, -, -, -, -, -⟩ := h
  constructor
  · intro d hd s hs
    have h1 := hcov d (Finset.mem_range.mpr hd) s (Finset.mem_range.mpr hs)
    refine ⟨h1, ?_⟩
    rw [workCellCount,
        Finset.sum_congr rfl (fun e hem => by
          rw [work_label_eq cfg a hamo e d s (Finset.mem_range.mp hem) hd hs])]
    exact h1
  · intro e he d hd
    exact atMostOne_pair cfg a hamo e d he hd

/-- Witness for C4: concrete instantiation at the February 2025 data. -/
theorem C4_coverage_witness :
    ((∑ e in Finset.range (numEmployees cfgW), bn (aW.x e 0 0)) = 1 ∧
     workCellCount cfgW aW 0 0 = 1) ∧
    bn (aW.x 0 0 0) + bn (aW.x 0 0 1) ≤ 1 :=
  ⟨(C4_coverage cfgW aW cfgW_model).1 0 (by decide) 0 (by decide),
   (C4_coverage cfgW aW cfgW_model).2 0 (by decide) 0 (by decide)⟩

/-- C7, counterexample: the ratio r0 = 2.5 - 2 ^ (-51) is a binary64 double
(fl r0 = r0) inside [1, 5], yet the cap computed by the source through the
float evaluation of int(14 r / (1 + r)) is 10 while min(floor(14 r0 /
(1 + r0)), 13) = 9: the float product rounds down to 35 - 2 ^ (-47) and the
float division then rounds up to exactly 10.0, one above the exact floor.
The assignment aTen satisfies every 14-day window constraint of the model
built for r0 yet packs 10 shifts into the first window, exceeding the
bound the claim states. -/
theorem C7_counterexample :
    fl r0 = r0 ∧ ((1:ℚ) ≤ r0 ∧ r0 ≤ 5) ∧
    maxWorkDaysInWindow cfgR0 = 10 ∧
    min ⌊14 * r0 / (1 + r0)⌋ 13 = 9 ∧
    windowC cfgR0 aTen ∧
    windowSum cfgR0 aTen 0 0 = 10 ∧
    ¬ windowSum cfgR0 aTen 0 0 ≤ min ⌊14 * r0 / (1 + r0)⌋ 13 := by
  have hD : (0:ℚ) < 1 + r0 := by norm_num [r0]
  have hfloor : ⌊14 * r0 / (1 + r0)⌋ = 9 := by
    rw [Int.floor_eq_iff]
    constructor
    · rw [le_div_iff₀ hD]
      push_cast
      norm_num [r0]
    · rw [div_lt_iff₀ hD]
      push_cast
      norm_num [r0]
  have hmin : min ⌊14 * r0 / (1 + r0)⌋ 13 = 9 := by
    rw [hfloor]
    norm_num
  have hwc : windowC cfgR0 aTen := by
    unfold windowC
    simp only [maxW_cfgR0]
    decide
  have hsum : windowSum cfgR0 aTen 0 0 = 10 := by decide
  refine ⟨fl_r0, ⟨by norm_num [r0], by norm_num [r0]⟩, maxW_cfgR0, hmin,
    hwc, hsum, ?_⟩
  rw [hsum, hmin]
  decide

/-- C7 (amended): the model bounds the shifts of every employee in every
14-day window by maxWorkDaysInWindow = min(int(Q), 13), where Q is the
binary64 float evaluation fl(fl(14 r) / fl(1 + r)) of 14 r / (1 + r)
performed by the source; for every ratio r between 1 and 5 the int()
truncation equals the floor of Q (the float quotient is nonnegative), but
Q, and with it the cap, can exceed the floor of the exact rational
quotient, as the counterexample at r0 shows. -/
theorem C7_window_cap (cfg : Config) (a : Asg)
    (hr1 : 1 ≤ cfg.work_rest_ratio) (_hr5 : cfg.work_rest_ratio ≤ 5)
    (h : modelConstraints cfg a) :
    maxWorkDaysInWindow cfg =
      min ⌊floatRatioQuotient cfg.work_rest_ratio⌋ 13 ∧
    (∀ e, e < numEmployees cfg → ∀ start, start + 14 ≤ numDays cfg →
      windowSum cfg a e start ≤
        min ⌊floatRatioQuotient cfg.work_rest_ratio⌋ 13) := by
  have hq : (0 : ℚ) ≤ floatRatioQuotient cfg.work_rest_ratio := by
    rw [floatRatioQuotient]
    apply fl_nonneg
    apply div_nonneg
    · exact fl_nonneg _ (by linarith)
    · exact (fl_pos _ (by linarith)).le
  have heq : maxWorkDaysInWindow cfg =
      min ⌊floatRatioQuotient cfg.work_rest_ratio⌋ 13 := by
    rw [maxWorkDaysInWindow, pyTruncInt_eq_floor _ hq]
  refine ⟨heq, ?_⟩
  intro e he start hstart
  obtain ⟨-, -, -, -, -, -, hwin, -, -, -⟩ := h
  have hmem : start ∈ Finset.range (numDays cfg + 1 - 14) :=
    Finset.mem_range.mpr (by omega)
  have hb := hwin e (Finset.mem_range.mpr he) start hmem
  rw [heq] at hb
  exact hb

/-- Witness for C7: concrete instantiation at the February 2025 data. -/
theorem C7_window_cap_witness :
    maxWorkDaysInWindow cfgW =
      min ⌊floatRatioQuotient cfgW.work_rest_ratio⌋ 13 ∧
    windowSum cfgW aW 0 0 ≤
      min ⌊floatRatioQuotient cfgW.work_rest_ratio⌋ 13 := by
  have hr1 : (1 : ℚ) ≤ cfgW.work_rest_ratio := by norm_num [cfgW]
  have hr5 : cfgW.work_rest_ratio ≤ 5 := by norm_num [cfgW]
  exact ⟨(C7_window_cap cfgW aW hr1 hr5 cfgW_model).1,
         (C7_window_cap cfgW aW hr1 hr5 cfgW_model).2 0 (by decide) 0
           (by decide)⟩

/-- Per-day accounting of the assembler branches: regular and overtime
hours split the worked hours, and the overtime suffix appears exactly on
overtime cells. -/
theorem dayAccounting_bool (x0 x1 ox0 ox1 hol : Bool)
    (h0 : bn ox0 ≤ bn x0) (h1 : bn ox1 ≤ bn x1) (hp : bn x0 + bn x1 ≤ 1) :
    ((if x0 then (if ox0 then 0 else shift_duration)
      else if x1 then (if ox1 then 0 else shift_duration) else 0)
      + shift_duration * (bn ox0 + bn ox1)
      = shift_duration * (bn x0 + bn x1)) ∧
    ((if x0 then (if ox0 then shift_duration else 0)
      else if x1 then (if ox1 then shift_duration else 0) else 0)
      = shift_duration * (bn ox0 + bn ox1)) ∧
    ((if x0 then shift_duration else if x1 then shift_duration else 0)
      = shift_duration * (bn x0 + bn x1)) ∧
    (bn (hasOvertimeSuffix (if x0 then (if ox0 then "M (S)" else "M")
        else if x1 then (if ox1 then "P (S)" else "P")
        else if hol then "F" else "R"))
      = bn ox0 + bn ox1) := by
  cases x0 <;> cases x1 <;> cases ox0 <;> cases ox1 <;> cases hol <;>
    revert h0 h1 hp <;> decide

/-- C8: in every accepted assignment, the reported regular hours of each
nurse are at most the contracted maximum floored to whole shifts (hence at
most the maximum itself), the reported overtime hours are at most 8 times
max_overhours, the worked hours equal regular plus overtime hours, and the
number of roster cells with the overtime suffix equals the overtime hours
divided by 8. -/
theorem C8_hours_accounting (cfg : Config) (a : Asg) (n : Nat)
    (hn : n < cfg.num_nurses) (h : modelConstraints cfg a) :
    regularHoursWorked cfg a n ≤ 8 * (cfg.max_nurse_hours n / 8) ∧
    regularHoursWorked cfg a n ≤ cfg.max_nurse_hours n ∧
    overhoursWorked cfg a n ≤ 8 * cfg.max_overhours ∧
    hoursWorkedOf cfg a n =
      regularHoursWorked cfg a n + overhoursWorked cfg a n ∧
    overtimeSuffixCells cfg a n = overhoursWorked cfg a n / 8 := by
  obtain ⟨-, hamo, hnh, -, -, -, -, -, -, -⟩ := h
  obtain ⟨hreg, hot, hsum, hoeq, hsub⟩ := hnh n (Finset.mem_range.mpr hn)
  have hne : n < numEmployees cfg := by
    unfold numEmployees
    omega
  have key : ∀ d ∈ Finset.range (numDays cfg),
      ((if a.x n d 0 then (if a.ox n d 0 then 0 else shift_duration)
        else if a.x n d 1 then (if a.ox n d 1 then 0 else shift_duration)
        else 0)
        + shift_duration * (bn (a.ox n d 0) + bn (a.ox n d 1))
        = shift_duration * (bn (a.x n d 0) + bn (a.x n d 1))) ∧
      ((if a.x n d 0 then (if a.ox n d 0 then shift_duration else 0)
        else if a.x n d 1 then (if a.ox n d 1 then shift_duration else 0)
        else 0)
        = shift_duration * (bn (a.ox n d 0) + bn (a.ox n d 1))) ∧
      ((if a.x n d 0 then shift_duration
        else if a.x n d 1 then shift_duration else 0)
        = shift_duration * (bn (a.x n d 0) + bn (a.x n d 1))) ∧
      (bn (hasOvertimeSuffix (nurseCell cfg a n d))
        = bn (a.ox n d 0) + bn (a.ox n d 1)) := by
    intro d hd
    exact dayAccounting_bool (a.x n d 0) (a.x n d 1) (a.ox n d 0)
      (a.ox n d 1) (isHolidayDay cfg n d)
      (hsub d hd 0 (Finset.mem_range.mpr (by omega)))
      (hsub d hd 1 (Finset.mem_range.mpr (by omega)))
      (atMostOne_pair cfg a hamo n d hne (Finset.mem_range.mp hd))
  have hT : totalShifts cfg a n =
      ∑ d in Finset.range (numDays cfg), (bn (a.x n d 0) + bn (a.x n d 1)) :=
    Finset.sum_congr rfl (fun d _ => sum_range_two _)
  have hO : overtimeShiftCount cfg a n =
      ∑ d in Finset.range (numDays cfg), (bn (a.ox n d 0) + bn (a.ox n d 1)) :=
    Finset.sum_congr rfl (fun d _ => sum_range_two _)
  have e1 : regularHoursWorked cfg a n
      + shift_duration * overtimeShiftCount cfg a n
      = shift_duration * totalShifts cfg a n := by
    rw [hT, hO, Finset.mul_sum, Finset.mul_sum, regularHoursWorked,
        ← Finset.sum_add_distrib]
    exact Finset.sum_congr rfl (fun d hd => (key d hd).1)
  have e2 : overhoursWorked cfg a n
      = shift_duration * overtimeShiftCount cfg a n := by
    rw [hO, Finset.mul_sum, overhoursWorked]
    exact Finset.sum_congr rfl (fun d hd => (key d hd).2.1)
  have e3 : hoursWorkedOf cfg a n = shift_duration * totalShifts cfg a n := by
    rw [hT, Finset.mul_sum, hoursWorkedOf]
    exact Finset.sum_congr rfl (fun d hd => (key d hd).2.2.1)
  have e4 : overtimeSuffixCells cfg a n = overtimeShiftCount cfg a n := by
    rw [hO, overtimeSuffixCells]
    exact Finset.sum_congr rfl (fun d hd => (key d hd).2.2.2)
  simp only [shift_duration] at e1 e2 e3
  simp only [maxRegularShifts, shift_duration] at hreg
  refine ⟨by omega, by omega, by omega, by omega, by omega⟩

/-- Witness for C8: concrete instantiation at the February 2025 data, where
nurse 1 works 14 regular shifts and 1 overtime shift. -/
theorem C8_hours_accounting_witness :
    regularHoursWorked cfgW aW 1 ≤ 8 * (cfgW.max_nurse_hours 1 / 8) ∧
    regularHoursWorked cfgW aW 1 ≤ cfgW.max_nurse_hours 1 ∧
    overhoursWorked cfgW aW 1 ≤ 8 * cfgW.max_overhours ∧
    hoursWorkedOf cfgW aW 1 =
      regularHoursWorked cfgW aW 1 + overhoursWorked cfgW aW 1 ∧
    overtimeSuffixCells cfgW aW 1 = overhoursWorked cfgW aW 1 / 8 :=
  C8_hours_accounting cfgW aW 1 (by decide) cfgW_model

end NurseSched
